import Mathlib

/-!
Verification development for the Gmail client module (`gmail_client.py`).

The Python source is shallowly embedded: each helper of the module becomes a
Lean definition with the same name (up to snake/camel conventions Lean allows),
raw wire records become structures with `Option` fields (a `none` field models
a missing dictionary key), and Python exceptions become the error side of
`Except`.  Library calls made by the module (`int`, `base64.urlsafe_b64decode`,
`bytes.decode('utf-8', errors='ignore')`, `datetime.fromtimestamp(...).isoformat()`,
`str.lower`) are modelled first, following CPython semantics on the inputs the
module can feed them (ASCII case folding for `str.lower`; the modelled local
timezone of `fromtimestamp` is UTC — every property proved below is
independent of a fixed UTC offset; float precision of `ms / 1000` is exact for
the magnitudes considered, and `OverflowError` for astronomically large
timestamps is outside the model, while the caught `ValueError` for years
outside 1..9999 is modelled).
-/

namespace GmailClient

/-! ### Model of `str.lower` (ASCII case folding) -/

def pyLowerChar (c : Char) : Char :=
  if 'A' ≤ c ∧ c ≤ 'Z' then Char.ofNat (c.toNat + 32) else c

def pyLower (s : String) : String := String.mk (s.data.map pyLowerChar)

/-! ### Model of Python `int(str)` -/

def isPySpace (c : Char) : Bool :=
  c == ' ' || c == '\t' || c == '\n' || c == '\r' || c == '\x0b' || c == '\x0c'

def isPyDigit (c : Char) : Bool := '0' ≤ c && c ≤ '9'

/-- Digit run of a Python integer literal: digits with single underscores
allowed between digits (`lastDigit` records whether the previous character was
a digit). -/
def pyDigitsAux : List Char → Bool → Nat → Option Nat
  | [], lastDigit, acc => if lastDigit then some acc else none
  | c :: rest, lastDigit, acc =>
    if isPyDigit c then pyDigitsAux rest true (10 * acc + (c.toNat - 48))
    else if c == '_' then (if lastDigit then pyDigitsAux rest false acc else none)
    else none

def stripPySpaces (l : List Char) : List Char :=
  ((l.dropWhile isPySpace).reverse.dropWhile isPySpace).reverse

/-- Model of `int(s)` for an ASCII string `s`: surrounding whitespace, an
optional sign, then digits with underscore grouping; `none` models the raised
`ValueError`. -/
def pyIntOfString (s : String) : Option Int :=
  match stripPySpaces s.data with
  | '+' :: rest => (pyDigitsAux rest false 0).map (fun n => (n : Int))
  | '-' :: rest => (pyDigitsAux rest false 0).map (fun n => -(n : Int))
  | l => (pyDigitsAux l false 0).map (fun n => (n : Int))

/-! ### Model of `base64.urlsafe_b64decode` on `str` input

`urlsafe_b64decode(s)` first ASCII-encodes `s` (raising `ValueError` on a
non-ASCII character), translates `-`/`_` to `+`/`/`, and calls
`binascii.a2b_base64` in non-strict mode: characters outside the alphabet are
skipped, padding `=` with at least two significant characters in the current
quad ends the decode, and a leftover quad position at the end of input raises
`binascii.Error`.  `none` models the raised error. -/

def b64CharVal (c : Char) : Option Nat :=
  if 'A' ≤ c && c ≤ 'Z' then some (c.toNat - 65)
  else if 'a' ≤ c && c ≤ 'z' then some (c.toNat - 71)
  else if '0' ≤ c && c ≤ '9' then some (c.toNat + 4)
  else if c == '+' then some 62
  else if c == '/' then some 63
  else none

def a2bBase64Aux : List Char → Nat → Nat → Nat → List Nat → Option (List Nat)
  | [], quadPos, _, _, out => if quadPos == 0 then some out.reverse else none
  | c :: rest, quadPos, leftchar, pads, out =>
    if c == '=' then
      if 2 ≤ quadPos then
        if 4 ≤ quadPos + (pads + 1) then some out.reverse
        else a2bBase64Aux rest quadPos leftchar (pads + 1) out
      else a2bBase64Aux rest quadPos leftchar pads out
    else
      match b64CharVal c with
      | none => a2bBase64Aux rest quadPos leftchar pads out
      | some v =>
        match quadPos with
        | 0 => a2bBase64Aux rest 1 v 0 out
        | 1 => a2bBase64Aux rest 2 (v % 16) 0 ((leftchar * 4 + v / 16) :: out)
        | 2 => a2bBase64Aux rest 3 (v % 4) 0 ((leftchar * 16 + v / 4) :: out)
        | _ => a2bBase64Aux rest 0 0 0 ((leftchar * 64 + v) :: out)

def pyUrlsafeB64decode (s : String) : Option (List Nat) :=
  if s.data.all (fun c => c.toNat < 128) then
    a2bBase64Aux
      (s.data.map (fun c => if c == '-' then '+' else if c == '_' then '/' else c))
      0 0 0 []
  else none

/-! ### Model of `bytes.decode('utf-8', errors='ignore')` -/

def isCont (b : Nat) : Bool := 128 ≤ b && b ≤ 191

/-- Valid second byte of a three-byte sequence (excludes overlongs for `E0`
and surrogates for `ED`). -/
def cont2Ok (b b2 : Nat) : Bool :=
  if b == 224 then 160 ≤ b2 && b2 ≤ 191
  else if b == 237 then 128 ≤ b2 && b2 ≤ 159
  else isCont b2

/-- Valid second byte of a four-byte sequence (excludes overlongs for `F0`
and values above U+10FFFF for `F4`). -/
def cont2Ok4 (b b2 : Nat) : Bool :=
  if b == 240 then 144 ≤ b2 && b2 ≤ 191
  else if b == 244 then 128 ≤ b2 && b2 ≤ 143
  else isCont b2

/-- Decoder state of the UTF-8 `ignore` decoder: either between sequences, or
inside a multi-byte sequence with the start byte (and second/third bytes)
remembered so that the remaining continuation bytes can be range-checked. -/
inductive U8State where
  | init
  | s2 (b : Nat)
  | s3a (b : Nat)
  | s3b (b b2 : Nat)
  | s4a (b : Nat)
  | s4b (b b2 : Nat)
  | s4c (b b2 b3 : Nat)
deriving DecidableEq

/-- Transition on a byte seen between sequences: ASCII is emitted, a legal
start byte opens a sequence, anything else is ignored. -/
def u8Fresh (c : Nat) : U8State × List Char :=
  if c < 128 then (U8State.init, [Char.ofNat c])
  else if 194 ≤ c && c ≤ 223 then (U8State.s2 c, [])
  else if 224 ≤ c && c ≤ 239 then (U8State.s3a c, [])
  else if 240 ≤ c && c ≤ 244 then (U8State.s4a c, [])
  else (U8State.init, [])

/-- One step of the decoder; on an invalid continuation byte the pending
sequence is dropped (`ignore`) and the byte is reprocessed as a fresh one. -/
def u8Step (st : U8State) (c : Nat) : U8State × List Char :=
  match st with
  | U8State.init => u8Fresh c
  | U8State.s2 b =>
    if isCont c then (U8State.init, [Char.ofNat ((b - 192) * 64 + (c - 128))])
    else u8Fresh c
  | U8State.s3a b => if cont2Ok b c then (U8State.s3b b c, []) else u8Fresh c
  | U8State.s3b b b2 =>
    if isCont c then (U8State.init, [Char.ofNat ((b - 224) * 4096 + (b2 - 128) * 64 + (c - 128))])
    else u8Fresh c
  | U8State.s4a b => if cont2Ok4 b c then (U8State.s4b b c, []) else u8Fresh c
  | U8State.s4b b b2 => if isCont c then (U8State.s4c b b2 c, []) else u8Fresh c
  | U8State.s4c b b2 b3 =>
    if isCont c then
      (U8State.init, [Char.ofNat ((b - 240) * 262144 + (b2 - 128) * 4096 + (b3 - 128) * 64 + (c - 128))])
    else u8Fresh c

/-- UTF-8 decoding with the `ignore` error handler: an invalid or truncated
sequence is dropped and decoding resumes at the first byte that broke it; a
sequence still pending at the end of input is dropped. -/
def utf8IgnoreAux : U8State → List Nat → List Char
  | _, [] => []
  | st, c :: rest =>
    (u8Step st c).2 ++ utf8IgnoreAux (u8Step st c).1 rest

def utf8Ignore (l : List Nat) : List Char := utf8IgnoreAux U8State.init l

def utf8DecodeIgnore (bytes : List Nat) : String := String.mk (utf8Ignore bytes)

/-! ### Model of `datetime.fromtimestamp(ms / 1000).isoformat()` -/

/-- Civil date from days since 1970-01-01 (proleptic Gregorian calendar). -/
def civilFromDays (z0 : Int) : Int × Nat × Nat :=
  let z := z0 + 719468
  let era : Int := Int.fdiv z 146097
  let doe : Nat := (z - era * 146097).toNat
  let yoe : Nat := (doe - doe / 1460 + doe / 36524 - doe / 146096) / 365
  let doy : Nat := doe - (365 * yoe + yoe / 4 - yoe / 100)
  let mp : Nat := (5 * doy + 2) / 153
  let d : Nat := doy - (153 * mp + 2) / 5 + 1
  let m : Nat := if mp < 10 then mp + 3 else mp - 9
  (era * 400 + (yoe : Int) + (if m ≤ 2 then 1 else 0), m, d)

def pad2 (n : Nat) : String := if n < 10 then "0" ++ toString n else toString n

def pad4 (n : Nat) : String :=
  if n < 10 then "000" ++ toString n
  else if n < 100 then "00" ++ toString n
  else if n < 1000 then "0" ++ toString n
  else toString n

def pad6 (n : Nat) : String :=
  if n < 10 then "00000" ++ toString n
  else if n < 100 then "0000" ++ toString n
  else if n < 1000 then "000" ++ toString n
  else if n < 10000 then "00" ++ toString n
  else if n < 100000 then "0" ++ toString n
  else toString n

/-- ISO-8601 string of `ms` milliseconds since the epoch, as produced by
`datetime.fromtimestamp(ms / 1000).isoformat()` with a UTC local timezone
(the microsecond part is omitted when zero, as `isoformat` does). -/
def isoOfMs (ms : Int) : String :=
  let s : Int := Int.fdiv ms 1000
  let usec : Nat := (Int.fmod ms 1000).toNat * 1000
  let days : Int := Int.fdiv s 86400
  let sod : Nat := (Int.fmod s 86400).toNat
  let ymd := civilFromDays days
  let hh := sod / 3600
  let mi := sod % 3600 / 60
  let ss := sod % 60
  pad4 ymd.1.toNat ++ "-" ++ pad2 ymd.2.1 ++ "-" ++ pad2 ymd.2.2 ++ "T" ++
    pad2 hh ++ ":" ++ pad2 mi ++ ":" ++ pad2 ss ++
    (if usec == 0 then "" else "." ++ pad6 usec)

/-- Year that `datetime.fromtimestamp(n / 1000)` would produce. -/
def tsYear (n : Int) : Int := (civilFromDays (Int.fdiv (Int.fdiv n 1000) 86400)).1

/-- Whether `datetime.fromtimestamp(n / 1000)` succeeds (`MINYEAR = 1`,
`MAXYEAR = 9999`); outside this range it raises the `ValueError` that
`_transform_message` catches. -/
def tsInRange (n : Int) : Bool := 1 ≤ tsYear n && tsYear n ≤ 9999

/-! ### Wire data model

Raw records are dictionaries; an `Option` field set to `none` models a
missing key.  Python exceptions raised by the embedded code are the error
side of `Except`, with one constructor per exception class that can occur. -/

/-- Decidable equality for `Except`, for evaluating embedded results on
concrete inputs. -/
instance {e a : Type} [DecidableEq e] [DecidableEq a] : DecidableEq (Except e a) := fun x y =>
  match x, y with
  | Except.ok u, Except.ok v =>
    if h : u = v then isTrue (congrArg Except.ok h)
    else isFalse (fun hc => h (Except.ok.inj hc))
  | Except.error u, Except.error v =>
    if h : u = v then isTrue (congrArg Except.error h)
    else isFalse (fun hc => h (Except.error.inj hc))
  | Except.ok _, Except.error _ => isFalse (fun hc => Except.noConfusion hc)
  | Except.error _, Except.ok _ => isFalse (fun hc => Except.noConfusion hc)

/-- Exceptions of the embedded code: `GmailAPIError`, `KeyError` (carrying its
key), `HttpError` raised by a remote call (carrying its `str()`), and
`binascii.Error`/ASCII `ValueError` raised by `base64.urlsafe_b64decode`. -/
inductive PyExc where
  | gmailAPIError (msg : String)
  | keyError (key : String)
  | httpError (msg : String)
  | b64Error
deriving DecidableEq

/-- One `{name, value}` header dictionary. -/
structure Header where
  name : Option String
  value : Option String
deriving DecidableEq

/-- A `body` dictionary, whose `data` key may be missing. -/
structure Body where
  data : Option String
deriving DecidableEq

mutual
/-- A raw MIME part: `{mimeType, body, parts, headers}`, each key optional
(a missing `parts`/`headers` key behaves exactly like an empty list in the
source, which only iterates over them). -/
inductive MimePart where
  | mk (mimeType : Option String) (body : Option Body) (parts : MimePartList) (headers : List Header)
/-- Ordered sequence of child parts. -/
inductive MimePartList where
  | nil
  | cons (p : MimePart) (rest : MimePartList)
end

def MimePart.mimeType : MimePart → Option String
  | MimePart.mk mt _ _ _ => mt

def MimePart.body : MimePart → Option Body
  | MimePart.mk _ b _ _ => b

def MimePart.parts : MimePart → MimePartList
  | MimePart.mk _ _ ps _ => ps

def MimePart.headers : MimePart → List Header
  | MimePart.mk _ _ _ hs => hs

/-- `part.get('body', {}).get('data', '')`. -/
def bodyDataOf (b : Option Body) : String :=
  match b with
  | none => ""
  | some bd => bd.data.getD ""

def bodyData (p : MimePart) : String := bodyDataOf p.body

/-- `base64.urlsafe_b64decode(data).decode('utf-8', errors='ignore')`:
the UTF-8 step never fails, the base64 step raises on malformed input. -/
def decodePy (data : String) : Except PyExc String :=
  match pyUrlsafeB64decode data with
  | none => Except.error PyExc.b64Error
  | some bs => Except.ok (utf8DecodeIgnore bs)

mutual
/-- `_get_text_from_part`: a `text/plain` node with inline data is decoded and
returned at once; otherwise a `text/html` node with inline data is decoded and
returned at once; otherwise the children are walked in order and the first
non-empty result wins; otherwise the empty string. -/
def get_text_from_part : MimePart → Except PyExc String
  | MimePart.mk mt body parts _ =>
    if mt == some "text/plain" then
      if bodyDataOf body ≠ "" then decodePy (bodyDataOf body) else get_text_from_parts parts
    else if mt == some "text/html" then
      if bodyDataOf body ≠ "" then decodePy (bodyDataOf body) else get_text_from_parts parts
    else get_text_from_parts parts
/-- The `for subpart in part.get('parts', [])` loop of `_get_text_from_part`. -/
def get_text_from_parts : MimePartList → Except PyExc String
  | MimePartList.nil => Except.ok ""
  | MimePartList.cons p rest =>
    match get_text_from_part p with
    | Except.error e => Except.error e
    | Except.ok t => if t = "" then get_text_from_parts rest else Except.ok t
end

/-- `_extract_email_content`: the top-level single-part `text/plain` check,
then the recursive walk (reached both when the mime type differs and when the
top-level `text/plain` node has no inline data). -/
def extract_email_content (payload : MimePart) : Except PyExc String :=
  if payload.mimeType == some "text/plain" && bodyData payload != "" then
    decodePy (bodyData payload)
  else get_text_from_part payload

/-- `_extract_header_value`: first header whose lowercased name equals the
lowercased target, else the empty string. -/
def extract_header_value : List Header → String → String
  | [], _ => ""
  | h :: rest, name =>
    if pyLower (h.name.getD "") = pyLower name then h.value.getD ""
    else extract_header_value rest name

/-- The transformed message record (`GmailMessage` TypedDict). -/
structure GmailMessage where
  messageId : String
  threadId : String
  messageTimestamp : String
  labelIds : List String
  sender : String
  subject : String
  messageText : String
deriving DecidableEq

/-- A raw Gmail API message record, keys as read by `_transform_message`. -/
structure RawMessage where
  id : Option String
  threadId : Option String
  internalDate : Option String
  labelIds : Option (List String)
  payload : Option MimePart

/-- `message.get('payload', {})` for a missing payload key. -/
def emptyPart : MimePart := MimePart.mk none none MimePartList.nil []

/-- The `try`/`except` timestamp block of `_transform_message`:
`int(message.get('internalDate', '0'))`, then conversion; `ValueError`
(unparseable string or a year outside `datetime`'s range) and `TypeError`
fall back to the epoch. -/
def computeTimestamp (internalDate : Option String) : String :=
  match pyIntOfString (internalDate.getD "0") with
  | none => isoOfMs 0
  | some n => if tsInRange n then isoOfMs n else isoOfMs 0

/-- `_transform_message`. -/
def transform_message (msg : RawMessage) : Except PyExc GmailMessage :=
  let payload := msg.payload.getD emptyPart
  let headers := payload.headers
  match extract_email_content payload with
  | Except.error e => Except.error e
  | Except.ok text =>
    Except.ok
      { messageId := msg.id.getD ""
        threadId := msg.threadId.getD ""
        messageTimestamp := computeTimestamp msg.internalDate
        labelIds := msg.labelIds.getD []
        sender := extract_header_value headers "From"
        subject := extract_header_value headers "Subject"
        messageText := text }

/-! ### Fetch orchestrator

Each remote call is modelled by its outcome: `Except.error e` stands for the
call raising an `HttpError` whose `str()` is `e`, `Except.ok` for the decoded
JSON response.  `asyncio.gather` collects results in argument order whatever
the completion order, and propagates the first raised exception; the model
takes the first in argument order (no claim below depends on which of several
simultaneous failures is reported). -/

structure RawProfile where
  emailAddress : Option String
  messagesTotal : Option Nat
  threadsTotal : Option Nat
  historyId : Option String

structure GmailProfile where
  emailAddress : String
  messagesTotal : Nat
  threadsTotal : Nat
  historyId : String
deriving DecidableEq

/-- `get_profile`: wraps any `HttpError` as
`GmailAPIError("Failed to fetch profile: {e}")`, defaults missing fields. -/
def get_profile (profileResult : Except String RawProfile) : Except PyExc GmailProfile :=
  match profileResult with
  | Except.error e => Except.error (PyExc.gmailAPIError ("Failed to fetch profile: " ++ e))
  | Except.ok p =>
    Except.ok
      { emailAddress := p.emailAddress.getD ""
        messagesTotal := p.messagesTotal.getD 0
        threadsTotal := p.threadsTotal.getD 0
        historyId := p.historyId.getD "" }

structure RawLabel where
  id : Option String
  name : Option String
  type : Option String
  messageListVisibility : Option String
  labelListVisibility : Option String

structure LabelsResponse where
  labels : Option (List RawLabel)

structure GmailLabel where
  id : String
  name : String
  type : String
  messageListVisibility : String
  labelListVisibility : String
deriving DecidableEq

/-- `get_labels`: wraps any `HttpError` as
`GmailAPIError("Failed to fetch labels: {e}")`. -/
def get_labels (labelsResult : Except String LabelsResponse) : Except PyExc (List GmailLabel) :=
  match labelsResult with
  | Except.error e => Except.error (PyExc.gmailAPIError ("Failed to fetch labels: " ++ e))
  | Except.ok r =>
    Except.ok ((r.labels.getD []).map (fun l =>
      { id := l.id.getD "", name := l.name.getD "", type := l.type.getD ""
        messageListVisibility := l.messageListVisibility.getD ""
        labelListVisibility := l.labelListVisibility.getD "" }))

/-- One `{id}` entry of the message-id listing response. -/
structure MsgRef where
  id : Option String

structure ListResponse where
  messages : Option (List MsgRef)

/-- `[msg['id'] for msg in messages_result.get('messages', [])]`; a missing
`'id'` key raises `KeyError('id')` at the first offending entry. -/
def extract_ids : List MsgRef → Except PyExc (List String)
  | [] => Except.ok []
  | r :: rest =>
    match r.id with
    | none => Except.error (PyExc.keyError "id")
    | some i =>
      match extract_ids rest with
      | Except.error e => Except.error e
      | Except.ok l => Except.ok (i :: l)

/-- The per-id detail fetches issued through `asyncio.gather`: results are
collected in identifier order whatever the completion order; an `HttpError`
raised by a fetch is carried to the surrounding handler. -/
def fetch_message_batch (fetchMsg : String → Except String RawMessage) :
    List String → Except PyExc (List RawMessage)
  | [] => Except.ok []
  | i :: rest =>
    match fetchMsg i with
    | Except.error e => Except.error (PyExc.httpError e)
    | Except.ok raw =>
      match fetch_message_batch fetchMsg rest with
      | Except.error e => Except.error e
      | Except.ok l => Except.ok (raw :: l)

/-- `[self._transform_message(msg) for msg in messages]`. -/
def transform_batch : List RawMessage → Except PyExc (List GmailMessage)
  | [] => Except.ok []
  | raw :: rest =>
    match transform_message raw with
    | Except.error e => Except.error e
    | Except.ok m =>
      match transform_batch rest with
      | Except.error e => Except.error e
      | Except.ok l => Except.ok (m :: l)

/-- Body of `get_recent_emails` before its `except HttpError` clause. -/
def get_recent_emails_body (listResult : Except String ListResponse)
    (fetchMsg : String → Except String RawMessage) : Except PyExc (List GmailMessage) :=
  match listResult with
  | Except.error e => Except.error (PyExc.httpError e)
  | Except.ok lr =>
    match extract_ids (lr.messages.getD []) with
    | Except.error e => Except.error e
    | Except.ok ids =>
      if ids.isEmpty then Except.ok []
      else
        match fetch_message_batch fetchMsg ids with
        | Except.error e => Except.error e
        | Except.ok raws => transform_batch raws

/-- `get_recent_emails`: the body wrapped by `except HttpError as e: raise
GmailAPIError(f"Failed to fetch emails: {e}")`; other exceptions, such as the
`KeyError` from a listing entry without `'id'`, propagate unwrapped. -/
def get_recent_emails (listResult : Except String ListResponse)
    (fetchMsg : String → Except String RawMessage) : Except PyExc (List GmailMessage) :=
  match get_recent_emails_body listResult fetchMsg with
  | Except.error (PyExc.httpError e) =>
    Except.error (PyExc.gmailAPIError ("Failed to fetch emails: " ++ e))
  | r => r

structure MailboxData where
  profile : GmailProfile
  labels : List GmailLabel
  emails : List GmailMessage
deriving DecidableEq

/-- `str(e)` for the modelled exceptions (`str` of a `KeyError` is the `repr`
of its key; the exact text chosen for `binascii.Error` is irrelevant to every
statement below). -/
def pyStrExc : PyExc → String
  | PyExc.gmailAPIError m => m
  | PyExc.keyError k => "'" ++ k ++ "'"
  | PyExc.httpError m => m
  | PyExc.b64Error => "Invalid base64-encoded string"

/-- `fetch_all_data`: `asyncio.gather` of the three operations, with
`except Exception as e: raise GmailAPIError(f"Failed to fetch Gmail data: {e}")`. -/
def fetch_all_data (profileResult : Except String RawProfile)
    (labelsResult : Except String LabelsResponse)
    (listResult : Except String ListResponse)
    (fetchMsg : String → Except String RawMessage) : Except PyExc MailboxData :=
  let gathered : Except PyExc MailboxData :=
    match get_profile profileResult with
    | Except.error e => Except.error e
    | Except.ok profile =>
      match get_labels labelsResult with
      | Except.error e => Except.error e
      | Except.ok labels =>
        match get_recent_emails listResult fetchMsg with
        | Except.error e => Except.error e
        | Except.ok emails => Except.ok { profile := profile, labels := labels, emails := emails }
  match gathered with
  | Except.error e => Except.error (PyExc.gmailAPIError ("Failed to fetch Gmail data: " ++ pyStrExc e))
  | r => r

/-! ### Substring containment (for "the message contains the operation name") -/

def listIsPre : List Char → List Char → Bool
  | [], _ => true
  | _ :: _, [] => false
  | a :: as, b :: bs => a == b && listIsPre as bs

def subOccurs (needle : List Char) : List Char → Bool
  | [] => listIsPre needle []
  | c :: t => listIsPre needle (c :: t) || subOccurs needle t

/-- `needle in hay` for strings. -/
def strContains (hay needle : String) : Bool := subOccurs needle.data hay.data

/-! ### Reference notions used to state the claims about the MIME walk -/

mutual
/-- First node in depth-first pre-order carrying inline body data with mime
type `text/plain` or `text/html` — the nodes at which the walk decodes. -/
def firstCandidate : MimePart → Option MimePart
  | MimePart.mk mt body parts hs =>
    if (mt == some "text/plain" || mt == some "text/html") && bodyDataOf body != "" then
      some (MimePart.mk mt body parts hs)
    else firstCandidateInList parts
/-- `firstCandidate` over a sequence of siblings, in order. -/
def firstCandidateInList : MimePartList → Option MimePart
  | MimePartList.nil => none
  | MimePartList.cons p rest =>
    match firstCandidate p with
    | some c => some c
    | none => firstCandidateInList rest
end

mutual
/-- First `text/plain` node with inline body data in depth-first pre-order —
the claims' "first plain-text leaf". -/
def firstPlainLeaf : MimePart → Option MimePart
  | MimePart.mk mt body parts hs =>
    if mt == some "text/plain" && bodyDataOf body != "" then
      some (MimePart.mk mt body parts hs)
    else firstPlainLeafInList parts
/-- `firstPlainLeaf` over a sequence of siblings, in order. -/
def firstPlainLeafInList : MimePartList → Option MimePart
  | MimePartList.nil => none
  | MimePartList.cons p rest =>
    match firstPlainLeaf p with
    | some c => some c
    | none => firstPlainLeafInList rest
end

mutual
/-- Every `data` string in the tree is empty or valid base64; sufficient for
the MIME walk never to raise. -/
def partDataValid : MimePart → Bool
  | MimePart.mk _ body parts _ =>
    (bodyDataOf body == "" || (pyUrlsafeB64decode (bodyDataOf body)).isSome) && partDataValidInList parts
/-- `partDataValid` over a sequence of siblings. -/
def partDataValidInList : MimePartList → Bool
  | MimePartList.nil => true
  | MimePartList.cons p rest => partDataValid p && partDataValidInList rest
end

/-! ### Helper lemmas -/

/-- The top-level single-part check of `_extract_email_content` coincides with
the first step of `_get_text_from_part`, so the extraction always equals the
recursive walk started at the payload root. -/
theorem extract_email_content_eq_walk (p : MimePart) :
    extract_email_content p = get_text_from_part p := by
  obtain ⟨mt, body, parts, hs⟩ := p
  by_cases hmt : mt = some "text/plain"
  · by_cases hd : bodyDataOf body = ""
    · simp [extract_email_content, get_text_from_part, MimePart.mimeType, bodyData,
        MimePart.body, hmt, hd]
    · simp [extract_email_content, get_text_from_part, MimePart.mimeType, bodyData,
        MimePart.body, hmt, hd]
  · simp [extract_email_content, MimePart.mimeType, hmt]

/-- A transform that succeeds reports the timestamp computed by the
`internalDate` block. -/
theorem transform_message_timestamp (raw : RawMessage) (m : GmailMessage)
    (h : transform_message raw = Except.ok m) :
    m.messageTimestamp = computeTimestamp raw.internalDate := by
  simp only [transform_message] at h
  cases hx : extract_email_content (raw.payload.getD emptyPart) with
  | error e => rw [hx] at h; cases h
  | ok t => rw [hx] at h; cases h; rfl

/-! ### Claim C9 -/

/-- Claim C9: for every ordered sequence of `{name, value}` header pairs and
every target name, `_extract_header_value` returns the value of the first pair
whose name matches the target case-insensitively, in header order, and the
empty string when no pair matches. -/
theorem claim_C9_header_lookup (headers : List Header) (name : String) :
    extract_header_value headers name =
      ((headers.find? (fun h => pyLower (h.name.getD "") == pyLower name)).map
        (fun h => h.value.getD "")).getD "" := by
  induction headers with
  | nil => rfl
  | cons h rest ih =>
    by_cases hm : pyLower (h.name.getD "") = pyLower name
    · simp [extract_header_value, List.find?, hm]
    · have hb : (pyLower (h.name.getD "") == pyLower name) = false :=
        beq_eq_false_iff_ne.mpr hm
      simp [extract_header_value, List.find?, hm, hb, ih]

/-! ### Claim C10 -/

/-- Claim C10: a successful listing response containing an entry without an
`'id'` key makes `get_recent_emails` raise a plain `KeyError('id')`, which is
not wrapped as a `GmailAPIError`. -/
theorem claim_C10_keyerror_unwrapped :
    get_recent_emails (Except.ok ⟨some [⟨none⟩]⟩) (fun _ => Except.error "unreached") =
      Except.error (PyExc.keyError "id") ∧
    (∀ m : String, PyExc.keyError "id" ≠ PyExc.gmailAPIError m) := by
  refine ⟨rfl, ?_⟩
  intro m h
  exact PyExc.noConfusion h

/-! ### Claim C8 -/

/-- Claim C8: a successful identifier-list call with zero identifiers (the
`messages` key absent or an empty list) makes `get_recent_emails` return the
empty sequence as a successful result, raising no error. -/
theorem claim_C8_empty_success (msgs : Option (List MsgRef))
    (fetchMsg : String → Except String RawMessage) (h : msgs.getD [] = []) :
    get_recent_emails (Except.ok ⟨msgs⟩) fetchMsg = Except.ok [] := by
  simp [get_recent_emails, get_recent_emails_body, h, extract_ids]

/-- Claim C8 witness at a concrete empty listing. -/
theorem claim_C8_empty_success_witness :
    get_recent_emails (Except.ok ⟨some []⟩) (fun _ => Except.error "boom") = Except.ok [] :=
  claim_C8_empty_success (some []) (fun _ => Except.error "boom") rfl

/-! ### Claim C4 -/

/-- Claim C4 is false as stated: a raw record without a `payload` key but with
a `labelIds` key keeps those labels; normalization does not return the empty
sequence for `labelIds`. -/
theorem claim_C4_counterexample :
    transform_message
      { id := some "m1", threadId := some "t1", internalDate := none,
        labelIds := some ["INBOX"], payload := none } =
      Except.ok
        { messageId := "m1", threadId := "t1",
          messageTimestamp := "1970-01-01T00:00:00",
          labelIds := ["INBOX"], sender := "", subject := "", messageText := "" } ∧
    (["INBOX"] : List String) ≠ [] := ⟨by decide, by decide⟩

/-- Claim C4 (amended): for every raw record without a `payload` key the
transform succeeds with empty sender, subject and messageText; `messageId` and
`threadId` are the record's `id` and `threadId` values (empty when absent);
`labelIds` is the record's `labelIds` value, the empty sequence only when that
key is absent as well. -/
theorem claim_C4_no_payload (raw : RawMessage) (h : raw.payload = none) :
    transform_message raw =
      Except.ok
        { messageId := raw.id.getD "", threadId := raw.threadId.getD "",
          messageTimestamp := computeTimestamp raw.internalDate,
          labelIds := raw.labelIds.getD [], sender := "", subject := "",
          messageText := "" } := by
  have hext : extract_email_content (MimePart.mk none none MimePartList.nil []) =
      Except.ok "" := by decide
  simp [transform_message, h, hext, emptyPart, MimePart.headers, extract_header_value]

/-- Claim C4 witness at a concrete record lacking both `payload` and
`labelIds`. -/
theorem claim_C4_no_payload_witness :
    transform_message
      { id := some "m9", threadId := none, internalDate := some "xyz",
        labelIds := none, payload := none } =
      Except.ok
        { messageId := "m9", threadId := "", messageTimestamp := "1970-01-01T00:00:00",
          labelIds := [], sender := "", subject := "", messageText := "" } := by
  rw [claim_C4_no_payload
    { id := some "m9", threadId := none, internalDate := some "xyz",
      labelIds := none, payload := none } rfl]
  decide

/-! ### Claim C5 -/

/-- Claim C5 is false as stated: `internalDate = "-1000"` parses to a negative
integer and is converted like any other value, yielding the pre-epoch local
time `1969-12-31T23:59:59` rather than the ISO representation of epoch
zero. -/
theorem claim_C5_counterexample :
    transform_message
      { id := some "m1", threadId := none, internalDate := some "-1000",
        labelIds := none, payload := none } =
      Except.ok
        { messageId := "m1", threadId := "", messageTimestamp := "1969-12-31T23:59:59",
          labelIds := [], sender := "", subject := "", messageText := "" } ∧
    ("1969-12-31T23:59:59" : String) ≠ isoOfMs 0 := ⟨by decide, by decide⟩

/-- Claim C5 (amended): a non-parseable or absent `internalDate` yields the
epoch-zero ISO timestamp; a parseable value whose instant lies inside
`datetime`'s year range yields the ISO local-time string of the value taken as
milliseconds since the epoch — including negative values, which yield
pre-1970 timestamps rather than epoch zero — while a parseable value outside
the year range falls back to epoch zero through the caught `ValueError`. -/
theorem claim_C5_timestamp (raw : RawMessage) (m : GmailMessage)
    (h : transform_message raw = Except.ok m) :
    (pyIntOfString (raw.internalDate.getD "0") = none → m.messageTimestamp = isoOfMs 0) ∧
    (∀ n : Int, pyIntOfString (raw.internalDate.getD "0") = some n →
      (tsInRange n = true → m.messageTimestamp = isoOfMs n) ∧
      (tsInRange n = false → m.messageTimestamp = isoOfMs 0)) := by
  have hm := transform_message_timestamp raw m h
  unfold computeTimestamp at hm
  constructor
  · intro hp
    rw [hp] at hm
    exact hm
  · intro n hp
    rw [hp] at hm
    have hm2 : m.messageTimestamp = if tsInRange n = true then isoOfMs n else isoOfMs 0 := hm
    constructor
    · intro hr
      rw [hr] at hm2
      simpa using hm2
    · intro hr
      rw [hr] at hm2
      simpa using hm2

/-- Claim C5 witness at a concrete parseable in-range `internalDate`. -/
theorem claim_C5_timestamp_witness :
    ({ messageId := "m1", threadId := "", messageTimestamp := "2023-11-04T18:40:00",
       labelIds := [], sender := "", subject := "",
       messageText := "" } : GmailMessage).messageTimestamp = isoOfMs 1699123200000 :=
  ((claim_C5_timestamp
    { id := some "m1", threadId := none, internalDate := some "1699123200000",
      labelIds := none, payload := none }
    { messageId := "m1", threadId := "", messageTimestamp := "2023-11-04T18:40:00",
      labelIds := [], sender := "", subject := "", messageText := "" }
    (by decide)).2 1699123200000 (by decide)).1 (by decide)

/-! ### Claim C6 -/

theorem listIsPre_append (n s e : List Char) (h : listIsPre n s = true) :
    listIsPre n (s ++ e) = true := by
  induction n generalizing s with
  | nil => rfl
  | cons a as ih =>
    cases s with
    | nil => simp [listIsPre] at h
    | cons b bs =>
      simp only [listIsPre, Bool.and_eq_true, beq_iff_eq] at h
      simp only [List.cons_append, listIsPre, Bool.and_eq_true, beq_iff_eq]
      exact ⟨h.1, ih bs h.2⟩

theorem subOccurs_nil_needle (e : List Char) : subOccurs [] e = true := by
  cases e with
  | nil => rfl
  | cons c t => simp [subOccurs, listIsPre]

/-- A substring occurrence survives appending on the right. -/
theorem subOccurs_append (n h e : List Char) (hs : subOccurs n h = true) :
    subOccurs n (h ++ e) = true := by
  induction h with
  | nil =>
    have hn : n = [] := by
      cases n with
      | nil => rfl
      | cons a as => simp [subOccurs, listIsPre] at hs
    subst hn
    simpa using subOccurs_nil_needle e
  | cons c t ih =>
    simp only [subOccurs, Bool.or_eq_true] at hs
    rcases hs with h1 | h2
    · have hp := listIsPre_append n (c :: t) e h1
      simp only [List.cons_append] at hp ⊢
      simp [subOccurs, hp]
    · have ht := ih h2
      simp [subOccurs, ht]

/-- A substring occurrence survives prepending on the left. -/
theorem subOccurs_prepend (n pre t : List Char) (h : subOccurs n t = true) :
    subOccurs n (pre ++ t) = true := by
  induction pre with
  | nil => simpa using h
  | cons c cs ih => simp [subOccurs, ih]

theorem strContains_append_right (s e needle : String)
    (h : strContains s needle = true) : strContains (s ++ e) needle = true := by
  unfold strContains at h ⊢
  rw [String.data_append]
  exact subOccurs_append needle.data s.data e.data h

theorem strContains_append_left (pre t needle : String)
    (h : strContains t needle = true) : strContains (pre ++ t) needle = true := by
  unfold strContains at h ⊢
  rw [String.data_append]
  exact subOccurs_prepend needle.data pre.data t.data h

/-- Claim C6 (amended): an `HttpError` surfaced by `get_profile`, `get_labels`
or `get_recent_emails` (whether from the identifier-list call or from a
per-message detail fetch) is raised as a `GmailAPIError` whose message
contains the logical operation name "profile", "labels" or "emails"
respectively; a failure surfaced by `fetch_all_data` is wrapped as
"Failed to fetch Gmail data: ..." — containing "Gmail data" and the failing
branch's operation name, not the compound "fetch-all". -/
theorem claim_C6_error_wrapping (e i : String)
    (lbl : Except String LabelsResponse) (lst : Except String ListResponse)
    (f : String → Except String RawMessage) :
    (get_profile (Except.error e) =
        Except.error (PyExc.gmailAPIError ("Failed to fetch profile: " ++ e)) ∧
      strContains ("Failed to fetch profile: " ++ e) "profile" = true) ∧
    (get_labels (Except.error e) =
        Except.error (PyExc.gmailAPIError ("Failed to fetch labels: " ++ e)) ∧
      strContains ("Failed to fetch labels: " ++ e) "labels" = true) ∧
    (get_recent_emails (Except.error e) f =
        Except.error (PyExc.gmailAPIError ("Failed to fetch emails: " ++ e)) ∧
      get_recent_emails (Except.ok ⟨some [⟨some i⟩]⟩) (fun _ => Except.error e) =
        Except.error (PyExc.gmailAPIError ("Failed to fetch emails: " ++ e)) ∧
      strContains ("Failed to fetch emails: " ++ e) "emails" = true) ∧
    (fetch_all_data (Except.error e) lbl lst f =
        Except.error (PyExc.gmailAPIError
          ("Failed to fetch Gmail data: " ++ ("Failed to fetch profile: " ++ e))) ∧
      strContains ("Failed to fetch Gmail data: " ++ ("Failed to fetch profile: " ++ e))
        "Gmail data" = true ∧
      strContains ("Failed to fetch Gmail data: " ++ ("Failed to fetch profile: " ++ e))
        "profile" = true) := by
  refine ⟨⟨rfl, ?_⟩, ⟨rfl, ?_⟩, ⟨rfl, rfl, ?_⟩, ⟨rfl, ?_, ?_⟩⟩
  · exact strContains_append_right "Failed to fetch profile: " e "profile" (by decide)
  · exact strContains_append_right "Failed to fetch labels: " e "labels" (by decide)
  · exact strContains_append_right "Failed to fetch emails: " e "emails" (by decide)
  · exact strContains_append_right "Failed to fetch Gmail data: "
      ("Failed to fetch profile: " ++ e) "Gmail data" (by decide)
  · exact strContains_append_left "Failed to fetch Gmail data: "
      ("Failed to fetch profile: " ++ e) "profile"
      (strContains_append_right "Failed to fetch profile: " e "profile" (by decide))

/-- Claim C6 is false as stated: a failure surfaced by `fetch_all_data` is
wrapped as "Failed to fetch Gmail data: ...", whose message does not contain
the compound operation name "fetch-all". -/
theorem claim_C6_counterexample :
    fetch_all_data (Except.error "boom") (Except.ok ⟨some []⟩) (Except.ok ⟨some []⟩)
        (fun _ => Except.error "x") =
      Except.error (PyExc.gmailAPIError
        "Failed to fetch Gmail data: Failed to fetch profile: boom") ∧
    strContains "Failed to fetch Gmail data: Failed to fetch profile: boom" "fetch-all" =
      false := ⟨by decide, by decide⟩

/-! ### Claim C7 -/

/-- When every identifier's detail fetch and transform succeed, the fetch
batch and the transform batch compose into the positional map. -/
theorem batch_ok (fetchMsg : String → Except String RawMessage)
    (g : String → GmailMessage) :
    ∀ ids : List String,
      (∀ i ∈ ids, ∃ raw, fetchMsg i = Except.ok raw ∧
        transform_message raw = Except.ok (g i)) →
      ∃ raws, fetch_message_batch fetchMsg ids = Except.ok raws ∧
        transform_batch raws = Except.ok (ids.map g) := by
  intro ids
  induction ids with
  | nil => intro _; exact ⟨[], rfl, rfl⟩
  | cons i rest ih =>
    intro h
    obtain ⟨raw, hf, ht⟩ := h i (by simp)
    obtain ⟨raws, h1, h2⟩ := ih (fun j hj => h j (by simp [hj]))
    refine ⟨raw :: raws, ?_, ?_⟩
    · simp [fetch_message_batch, hf, h1]
    · simp [transform_batch, ht, h2]

/-- `extract_ids` on a listing whose entries all carry an id recovers the
identifier list. -/
theorem extract_ids_map (ids : List String) :
    extract_ids (ids.map (fun i => ⟨some i⟩)) = Except.ok ids := by
  induction ids with
  | nil => rfl
  | cons i rest ih => simp [extract_ids, ih]

/-- Claim C7: when the listing yields identifiers `[id1, ..., idn]` and every
per-identifier detail fetch and transform succeeds, `get_recent_emails`
returns a sequence of length `n` whose i-th element is the transformed form of
the full message fetched for `id_i`; results are placed by input position
(the model of `asyncio.gather`), hence independent of completion order. -/
theorem claim_C7_order (ids : List String) (fetchMsg : String → Except String RawMessage)
    (g : String → GmailMessage)
    (h : ∀ i ∈ ids, ∃ raw, fetchMsg i = Except.ok raw ∧
      transform_message raw = Except.ok (g i)) :
    get_recent_emails (Except.ok ⟨some (ids.map (fun i => ⟨some i⟩))⟩) fetchMsg =
      Except.ok (ids.map g) ∧ (ids.map g).length = ids.length := by
  refine ⟨?_, by simp⟩
  obtain ⟨raws, h1, h2⟩ := batch_ok fetchMsg g ids h
  cases ids with
  | nil => rfl
  | cons i rest =>
    simp only [get_recent_emails, get_recent_emails_body, Option.getD_some,
      extract_ids_map]
    simp [h1, h2]

/-- Claim C7 witness at a concrete one-identifier listing. -/
theorem claim_C7_order_witness :
    get_recent_emails (Except.ok ⟨some [⟨some "m1"⟩]⟩)
        (fun _ => Except.ok
          { id := some "m1", threadId := none, internalDate := none,
            labelIds := none, payload := none }) =
      Except.ok
        [{ messageId := "m1", threadId := "", messageTimestamp := "1970-01-01T00:00:00",
           labelIds := [], sender := "", subject := "", messageText := "" }] ∧
    ([{ messageId := "m1", threadId := "", messageTimestamp := "1970-01-01T00:00:00",
        labelIds := [], sender := "", subject := "",
        messageText := "" }] : List GmailMessage).length = (["m1"] : List String).length :=
  claim_C7_order ["m1"]
    (fun _ => Except.ok
      { id := some "m1", threadId := none, internalDate := none,
        labelIds := none, payload := none })
    (fun _ =>
      { messageId := "m1", threadId := "", messageTimestamp := "1970-01-01T00:00:00",
        labelIds := [], sender := "", subject := "", messageText := "" })
    (fun i _ =>
      ⟨{ id := some "m1", threadId := none, internalDate := none,
         labelIds := none, payload := none }, rfl, by
        show transform_message
            { id := some "m1", threadId := none, internalDate := none,
              labelIds := none, payload := none } =
          Except.ok
            { messageId := "m1", threadId := "",
              messageTimestamp := "1970-01-01T00:00:00",
              labelIds := [], sender := "", subject := "", messageText := "" }
        decide⟩)

/-! ### Induction machinery for the MIME walk -/

/-- Pointwise property over a sibling sequence. -/
def MimePartList.Forall (P : MimePart → Prop) : MimePartList → Prop
  | MimePartList.nil => True
  | MimePartList.cons p rest => P p ∧ MimePartList.Forall P rest

/-- A property holding on every part smaller than the sequence holds on all
its members. -/
theorem forall_of_size (P : MimePart → Prop) :
    ∀ l : MimePartList, (∀ q : MimePart, sizeOf q < sizeOf l → P q) →
      MimePartList.Forall P l
  | MimePartList.nil => fun _ => trivial
  | MimePartList.cons p rest => fun h =>
    ⟨h p (by simp; omega),
     forall_of_size P rest (fun q hq => h q (by simp; omega))⟩

/-- The property of a single part proved for claim C2: the walk returns the
empty string when the subtree has no decodable candidate, and returns the
decoded content of the subtree's first candidate when that content is
non-empty. -/
def WalkSpec (p : MimePart) : Prop :=
  (firstCandidate p = none → get_text_from_part p = Except.ok "") ∧
  (∀ c s, firstCandidate p = some c → decodePy (bodyData c) = Except.ok s → s ≠ "" →
    get_text_from_part p = Except.ok s)

/-- `WalkSpec` lifts from the members of a sibling sequence to the loop over
it. -/
theorem walkSpec_list : ∀ l : MimePartList, MimePartList.Forall WalkSpec l →
    (firstCandidateInList l = none → get_text_from_parts l = Except.ok "") ∧
    (∀ c s, firstCandidateInList l = some c → decodePy (bodyData c) = Except.ok s → s ≠ "" →
      get_text_from_parts l = Except.ok s)
  | MimePartList.nil => fun _ =>
    ⟨fun _ => rfl, fun c s hc => by simp [firstCandidateInList] at hc⟩
  | MimePartList.cons p rest => fun hf => by
    obtain ⟨hp, hrest⟩ := hf
    have hr := walkSpec_list rest hrest
    constructor
    · intro hn
      cases hfc : firstCandidate p with
      | some c => simp [firstCandidateInList, hfc] at hn
      | none =>
        have h1 : get_text_from_part p = Except.ok "" := hp.1 hfc
        have h2 : firstCandidateInList rest = none := by
          simpa [firstCandidateInList, hfc] using hn
        simp [get_text_from_parts, h1, hr.1 h2]
    · intro c s hc hd hs
      cases hfc : firstCandidate p with
      | some c' =>
        have hcc : c' = c := by simpa [firstCandidateInList, hfc] using hc
        subst hcc
        have h1 : get_text_from_part p = Except.ok s := hp.2 c' s hfc hd hs
        simp [get_text_from_parts, h1, hs]
      | none =>
        have h2 : firstCandidateInList rest = some c := by
          simpa [firstCandidateInList, hfc] using hc
        have h1 : get_text_from_part p = Except.ok "" := hp.1 hfc
        simp [get_text_from_parts, h1, hr.2 c s h2 hd hs]

/-- `WalkSpec` holds of every part (strong induction on size). -/
theorem walkSpec_all (p : MimePart) : WalkSpec p := by
  have main : ∀ n : Nat, ∀ p : MimePart, sizeOf p ≤ n → WalkSpec p := by
    intro n
    induction n using Nat.strong_induction_on with
    | _ n ih =>
      intro p hple
      obtain ⟨mt, body, parts, hdrs⟩ := p
      have hsz : sizeOf parts < n := by
        have h1 : sizeOf parts < sizeOf (MimePart.mk mt body parts hdrs) := by simp; omega
        omega
      have hforall : MimePartList.Forall WalkSpec parts :=
        forall_of_size WalkSpec parts
          (fun q hq => ih (sizeOf q) (by omega) q (Nat.le_refl _))
      have hlist := walkSpec_list parts hforall
      by_cases hcond :
          ((mt == some "text/plain" || mt == some "text/html") && bodyDataOf body != "") = true
      · constructor
        · intro hn
          simp [firstCandidate, hcond] at hn
        · intro c s hc hd hs
          have hcc : MimePart.mk mt body parts hdrs = c := by
            simpa [firstCandidate, hcond] using hc
          subst hcc
          have hdata : bodyData (MimePart.mk mt body parts hdrs) = bodyDataOf body := rfl
          rw [hdata] at hd
          simp only [Bool.and_eq_true, Bool.or_eq_true, bne_iff_ne, ne_eq] at hcond
          rcases hcond with ⟨hmt, hne⟩
          rcases hmt with hplain | hhtml
          · simp [get_text_from_part, hplain, hne, hd]
          · by_cases hplain : mt == some "text/plain"
            · simp [get_text_from_part, hplain, hne, hd]
            · simp [get_text_from_part, hplain, hhtml, hne, hd]
      · have hfc : firstCandidate (MimePart.mk mt body parts hdrs) =
            firstCandidateInList parts := by
          simp [firstCandidate, hcond]
        have hwalk : get_text_from_part (MimePart.mk mt body parts hdrs) =
            get_text_from_parts parts := by
          simp only [Bool.and_eq_true, Bool.or_eq_true, bne_iff_ne, ne_eq, not_and_or,
            not_or, not_not] at hcond
          rcases hcond with ⟨hnp, hnh⟩ | hdata
          · simp [get_text_from_part, hnp, hnh]
          · by_cases hplain : mt == some "text/plain"
            · simp [get_text_from_part, hplain, hdata]
            · by_cases hhtml : mt == some "text/html"
              · simp [get_text_from_part, hplain, hhtml, hdata]
              · simp [get_text_from_part, hplain, hhtml]
        exact ⟨fun hn => by rw [hwalk]; exact hlist.1 (by rwa [hfc] at hn),
               fun c s hc hd hs => by rw [hwalk]; exact hlist.2 c s (by rwa [hfc] at hc) hd hs⟩
  exact main (sizeOf p) p (Nat.le_refl _)

/-! ### Claim C2 -/

/-- Claim C2 (amended): `messageText` equals the decoded content of the first
node in depth-first pre-order that carries inline body data with mime type
`text/plain` or `text/html` — an earlier `text/html` node takes precedence
over a later `text/plain` leaf — at any nesting depth, provided that decode
succeeds and yields non-empty text. -/
theorem claim_C2_first_candidate_text (raw : RawMessage) (p c : MimePart) (s : String)
    (hp : raw.payload = some p) (hc : firstCandidate p = some c)
    (hd : decodePy (bodyData c) = Except.ok s) (hs : s ≠ "") :
    ∃ m, transform_message raw = Except.ok m ∧ m.messageText = s := by
  have hwalk : get_text_from_part p = Except.ok s := (walkSpec_all p).2 c s hc hd hs
  have hx : extract_email_content p = Except.ok s := by
    rw [extract_email_content_eq_walk]
    exact hwalk
  refine ⟨{ messageId := raw.id.getD "", threadId := raw.threadId.getD "",
            messageTimestamp := computeTimestamp raw.internalDate,
            labelIds := raw.labelIds.getD [],
            sender := extract_header_value p.headers "From",
            subject := extract_header_value p.headers "Subject",
            messageText := s }, ?_, rfl⟩
  simp [transform_message, hp, hx]

/-- Claim C2 witness at a doubly nested multipart tree whose only candidate is
a `text/plain` leaf. -/
theorem claim_C2_first_candidate_text_witness :
    ∃ m, transform_message
      { id := some "m3", threadId := none, internalDate := none, labelIds := none,
        payload := some (MimePart.mk (some "multipart/mixed") none
          (MimePartList.cons
            (MimePart.mk (some "multipart/alternative") none
              (MimePartList.cons
                (MimePart.mk (some "text/plain") (some ⟨some "YWJj"⟩) MimePartList.nil [])
                MimePartList.nil) [])
            MimePartList.nil) []) } = Except.ok m ∧ m.messageText = "abc" :=
  claim_C2_first_candidate_text _
    (MimePart.mk (some "multipart/mixed") none
      (MimePartList.cons
        (MimePart.mk (some "multipart/alternative") none
          (MimePartList.cons
            (MimePart.mk (some "text/plain") (some ⟨some "YWJj"⟩) MimePartList.nil [])
            MimePartList.nil) [])
        MimePartList.nil) [])
    (MimePart.mk (some "text/plain") (some ⟨some "YWJj"⟩) MimePartList.nil [])
    "abc" rfl rfl (by decide) (by decide)

/-- Claim C2 is false as stated: in a multipart tree whose depth-first
pre-order meets a `text/html` part with inline data before the first
`text/plain` leaf, normalization returns the HTML content, not the decoded
content of that first plain-text leaf. -/
theorem claim_C2_counterexample :
    firstPlainLeaf
        (MimePart.mk (some "multipart/alternative") none
          (MimePartList.cons (MimePart.mk (some "text/html") (some ⟨some "PGI-"⟩) MimePartList.nil [])
            (MimePartList.cons (MimePart.mk (some "text/plain") (some ⟨some "YWJj"⟩) MimePartList.nil [])
              MimePartList.nil)) []) =
      some (MimePart.mk (some "text/plain") (some ⟨some "YWJj"⟩) MimePartList.nil []) ∧
    decodePy (bodyData (MimePart.mk (some "text/plain") (some ⟨some "YWJj"⟩) MimePartList.nil [])) =
      Except.ok "abc" ∧
    transform_message
      { id := some "m4", threadId := none, internalDate := none, labelIds := none,
        payload := some (MimePart.mk (some "multipart/alternative") none
          (MimePartList.cons (MimePart.mk (some "text/html") (some ⟨some "PGI-"⟩) MimePartList.nil [])
            (MimePartList.cons (MimePart.mk (some "text/plain") (some ⟨some "YWJj"⟩) MimePartList.nil [])
              MimePartList.nil)) []) } =
      Except.ok
        { messageId := "m4", threadId := "", messageTimestamp := "1970-01-01T00:00:00",
          labelIds := [], sender := "", subject := "", messageText := "<b>" } ∧
    ("<b>" : String) ≠ "abc" :=
  ⟨rfl, rfl, by decide, by decide⟩

/-! ### Claim C3 -/

/-- Claim C3 is false as stated: a top-level `text/plain` payload without a
`data` key and with a decodable nested child yields the child's content, not
the empty string — the code falls through to the recursive walk. -/
theorem claim_C3_counterexample :
    extract_email_content
      (MimePart.mk (some "text/plain") (some ⟨none⟩)
        (MimePartList.cons (MimePart.mk (some "text/plain") (some ⟨some "YWJj"⟩) MimePartList.nil [])
          MimePartList.nil) []) = Except.ok "abc" ∧
    (Except.ok "abc" : Except PyExc String) ≠ Except.ok "" := ⟨by decide, by decide⟩

/-- Claim C3 (amended): for a payload whose top-level declared mime type is
`text/plain` but whose body carries no data, extraction does not stop with the
empty string: it falls through to the recursive walk over the child parts and
returns that walk's result (empty only when no part yields content). -/
theorem claim_C3_plain_no_data (p : MimePart) (h1 : p.mimeType = some "text/plain")
    (h2 : bodyData p = "") :
    extract_email_content p = get_text_from_parts p.parts := by
  rw [extract_email_content_eq_walk]
  obtain ⟨mt, body, parts, hdrs⟩ := p
  simp only [MimePart.mimeType] at h1
  have h2' : bodyDataOf body = "" := h2
  simp [get_text_from_part, h1, h2', MimePart.parts]

/-- Claim C3 witness at a concrete top-level `text/plain` payload without
data whose child decodes. -/
theorem claim_C3_plain_no_data_witness :
    extract_email_content
        (MimePart.mk (some "text/plain") (some ⟨none⟩)
          (MimePartList.cons (MimePart.mk (some "text/plain") (some ⟨some "ZGVm"⟩) MimePartList.nil [])
            MimePartList.nil) []) =
      get_text_from_parts
        (MimePart.mk (some "text/plain") (some ⟨none⟩)
          (MimePartList.cons (MimePart.mk (some "text/plain") (some ⟨some "ZGVm"⟩) MimePartList.nil [])
            MimePartList.nil) []).parts ∧
    extract_email_content
        (MimePart.mk (some "text/plain") (some ⟨none⟩)
          (MimePartList.cons (MimePart.mk (some "text/plain") (some ⟨some "ZGVm"⟩) MimePartList.nil [])
            MimePartList.nil) []) = Except.ok "def" :=
  ⟨claim_C3_plain_no_data _ rfl rfl, by decide⟩

/-! ### Claim C1 -/

/-- Data validity lifts from the members of a sibling sequence to the loop
over it: the walk never raises. -/
theorem walk_ok_list : ∀ l : MimePartList,
    MimePartList.Forall
      (fun q => partDataValid q = true → ∃ s, get_text_from_part q = Except.ok s) l →
    partDataValidInList l = true → ∃ s, get_text_from_parts l = Except.ok s
  | MimePartList.nil => fun _ _ => ⟨"", rfl⟩
  | MimePartList.cons p rest => fun hf hv => by
    obtain ⟨hp, hrest⟩ := hf
    simp only [partDataValidInList, Bool.and_eq_true] at hv
    obtain ⟨s, hs⟩ := hp hv.1
    obtain ⟨t, ht⟩ := walk_ok_list rest hrest hv.2
    by_cases hse : s = ""
    · exact ⟨t, by simp [get_text_from_parts, hs, hse, ht]⟩
    · exact ⟨s, by simp [get_text_from_parts, hs, hse]⟩

/-- A part whose tree holds only empty or valid base64 data makes the walk
succeed (strong induction on size). -/
theorem walk_ok_of_valid (p : MimePart) (hv : partDataValid p = true) :
    ∃ s, get_text_from_part p = Except.ok s := by
  have main : ∀ n : Nat, ∀ p : MimePart, sizeOf p ≤ n → partDataValid p = true →
      ∃ s, get_text_from_part p = Except.ok s := by
    intro n
    induction n using Nat.strong_induction_on with
    | _ n ih =>
      intro p hple hpv
      obtain ⟨mt, body, parts, hdrs⟩ := p
      have hsz : sizeOf parts < n := by
        have h1 : sizeOf parts < sizeOf (MimePart.mk mt body parts hdrs) := by simp; omega
        omega
      have hforall := forall_of_size
        (fun q => partDataValid q = true → ∃ s, get_text_from_part q = Except.ok s) parts
        (fun q hq => ih (sizeOf q) (by omega) q (Nat.le_refl _))
      simp only [partDataValid, Bool.and_eq_true, Bool.or_eq_true] at hpv
      obtain ⟨hdat, hrest⟩ := hpv
      have hlist := walk_ok_list parts hforall hrest
      have hdec : bodyDataOf body ≠ "" → ∃ bs, pyUrlsafeB64decode (bodyDataOf body) = some bs := by
        intro hne
        rcases hdat with hdat | hdat
        · exact absurd (by simpa using hdat) hne
        · exact Option.isSome_iff_exists.mp hdat
      by_cases hplain : mt == some "text/plain"
      · by_cases hd : bodyDataOf body = ""
        · simpa [get_text_from_part, hplain, hd] using hlist
        · obtain ⟨bs, hbs⟩ := hdec hd
          exact ⟨utf8DecodeIgnore bs, by simp [get_text_from_part, hplain, hd, decodePy, hbs]⟩
      · by_cases hhtml : mt == some "text/html"
        · by_cases hd : bodyDataOf body = ""
          · simpa [get_text_from_part, hplain, hhtml, hd] using hlist
          · obtain ⟨bs, hbs⟩ := hdec hd
            exact ⟨utf8DecodeIgnore bs,
              by simp [get_text_from_part, hplain, hhtml, hd, decodePy, hbs]⟩
        · simpa [get_text_from_part, hplain, hhtml] using hlist
  exact main (sizeOf p) p (Nat.le_refl _) hv

/-- Claim C1 (amended): `_transform_message` returns a message without raising
for every structurally plausible raw record in which each inline body `data`
string of the payload tree is empty or valid base64 — missing keys, arbitrary
nesting and arbitrary `internalDate` strings never fail, and the UTF-8
interpretation never fails (`errors='ignore'`); malformed base64 `data`,
however, raises `binascii.Error` outside any handler. -/
theorem claim_C1_transform_total (raw : RawMessage)
    (h : ∀ p, raw.payload = some p → partDataValid p = true) :
    ∃ m, transform_message raw = Except.ok m := by
  cases hp : raw.payload with
  | none =>
    have hext : extract_email_content (MimePart.mk none none MimePartList.nil []) =
        Except.ok "" := by decide
    refine ⟨{ messageId := raw.id.getD "", threadId := raw.threadId.getD "",
              messageTimestamp := computeTimestamp raw.internalDate,
              labelIds := raw.labelIds.getD [], sender := "", subject := "",
              messageText := "" }, ?_⟩
    simp [transform_message, hp, hext, emptyPart, MimePart.headers, extract_header_value]
  | some p =>
    obtain ⟨s, hs⟩ := walk_ok_of_valid p (h p hp)
    have hx : extract_email_content p = Except.ok s := by
      rw [extract_email_content_eq_walk]
      exact hs
    refine ⟨{ messageId := raw.id.getD "", threadId := raw.threadId.getD "",
              messageTimestamp := computeTimestamp raw.internalDate,
              labelIds := raw.labelIds.getD [],
              sender := extract_header_value p.headers "From",
              subject := extract_header_value p.headers "Subject",
              messageText := s }, ?_⟩
    simp [transform_message, hp, hx]

/-- Claim C1 witness at a concrete record with valid base64 data. -/
theorem claim_C1_transform_total_witness :
    ∃ m, transform_message
      { id := some "m2", threadId := none, internalDate := some "20", labelIds := none,
        payload := some (MimePart.mk (some "multipart/mixed") none
          (MimePartList.cons (MimePart.mk (some "text/plain") (some ⟨some "YWJj"⟩) MimePartList.nil [])
            MimePartList.nil) []) } = Except.ok m :=
  claim_C1_transform_total _ (fun p hp => by
    injection hp with h
    subst h
    decide)

/-- Claim C1 is false as stated: body data `"a"` (one data character beyond a
multiple of four) makes `base64.urlsafe_b64decode` raise `binascii.Error`
outside any handler, so the transformation raises instead of returning a
message. -/
theorem claim_C1_counterexample :
    transform_message
      { id := some "m1", threadId := none, internalDate := none, labelIds := none,
        payload := some (MimePart.mk (some "text/plain") (some ⟨some "a"⟩) MimePartList.nil []) } =
      Except.error PyExc.b64Error ∧
    ∀ m : GmailMessage, Except.error PyExc.b64Error ≠ Except.ok m :=
  ⟨by decide, fun m h => Except.noConfusion h⟩

end GmailClient

namespace GmailClientProbes

open GmailClient

example : pyIntOfString "1699123200000" = some 1699123200000 := by decide
example : pyIntOfString "-1000" = some (-1000) := by decide
example : pyIntOfString " 42 " = some 42 := by decide
example : pyIntOfString "invalid_timestamp" = none := by decide
example : pyIntOfString "" = none := by decide
example : pyIntOfString "1_0" = some 10 := by decide
example : pyIntOfString "_1" = none := by decide

example : pyUrlsafeB64decode "YWJj" = some [97, 98, 99] := by decide
example : pyUrlsafeB64decode "a" = none := by decide
example : pyUrlsafeB64decode "PGI-" = some [60, 98, 62] := by decide
example : pyUrlsafeB64decode "VGVzdCBtZXNzYWdl" =
    some [84, 101, 115, 116, 32, 109, 101, 115, 115, 97, 103, 101] := by decide

example : utf8DecodeIgnore [97, 98, 99] = "abc" := by decide
example : utf8DecodeIgnore [104, 105, 255, 33] = "hi!" := by decide

example : isoOfMs 0 = "1970-01-01T00:00:00" := by decide
example : isoOfMs (-1000) = "1969-12-31T23:59:59" := by decide

example :
    transform_message
      { id := some "msg123", threadId := some "thread456",
        internalDate := some "1699123200000",
        labelIds := some ["INBOX", "UNREAD"],
        payload := some (MimePart.mk (some "text/plain")
          (some ⟨some "VGhpcyBpcyBhIHRlc3QgZW1haWwgbWVzc2FnZS4="⟩) MimePartList.nil
          [⟨some "From", some "sender@example.com"⟩,
           ⟨some "Subject", some "Test Email Subject"⟩,
           ⟨some "Date", some "Sat, 4 Nov 2023 12:00:00 +0000"⟩]) } =
    Except.ok
      { messageId := "msg123", threadId := "thread456",
        messageTimestamp := "2023-11-04T18:40:00",
        labelIds := ["INBOX", "UNREAD"], sender := "sender@example.com",
        subject := "Test Email Subject",
        messageText := "This is a test email message." } := by decide

example :
    transform_message
      { id := some "m1", threadId := none, internalDate := none, labelIds := none,
        payload := some (MimePart.mk (some "text/plain") (some ⟨some "a"⟩) MimePartList.nil []) } =
    Except.error PyExc.b64Error := by decide

example :
    extract_email_content
      (MimePart.mk (some "text/plain") (some ⟨none⟩)
        (MimePartList.cons (MimePart.mk (some "text/plain") (some ⟨some "YWJj"⟩) MimePartList.nil [])
          MimePartList.nil) []) =
    Except.ok "abc" := by decide

example :
    extract_email_content
      (MimePart.mk (some "multipart/alternative") none
        (MimePartList.cons (MimePart.mk (some "text/html") (some ⟨some "PGI-"⟩) MimePartList.nil [])
          (MimePartList.cons (MimePart.mk (some "text/plain") (some ⟨some "YWJj"⟩) MimePartList.nil [])
            MimePartList.nil)) []) =
    Except.ok "<b>" := by decide

end GmailClientProbes
